import Mathlib

/-!
Shallow embedding of `cassandra_session.py` (class `CassandraManager`, a
Cassandra-backed beaker session store).  Python 2 strings are modelled as
lists of characters (`Str`); the `web_session` table is modelled as an
association list from storage key to the text stored in the `data` column;
Cassandra statement execution is modelled by its effect on that table.
The external pickle codec is a parameter (`dumps`/`loads`); the hex codec
(`str.encode('hex')` / `str.decode('hex')`) is modelled concretely; the
cluster partitioner is a parameter `tok : Str → Int` giving each key its
token.
-/

/-- Python strings, modelled as lists of characters. -/
abbrev Str := List Char

/-- `s.replace(old, new)` for a one-character `old`: every occurrence of
`old` in `s` is replaced by the string `new`. -/
def pyReplace (old : Char) (new : Str) : Str → Str
  | [] => []
  | c :: rest => (if c = old then new else [c]) ++ pyReplace old new rest

/-- The replacement character written `'\302\267'` in the source: the two
bytes C2 B7 are the UTF-8 encoding of U+00B7 (MIDDLE DOT), a non-ASCII
character. -/
def middleDot : Char := Char.ofNat 183

/-- `_format_key` (line 166): `'%s:%s' % (self.namespace, key.replace(' ', '\302\267'))`.
Only the space character `' '` is passed to `replace`. -/
def format_key (ns key : Str) : Str :=
  ns ++ [':'] ++ pyReplace ' ' [middleDot] key

/-- Python 2 `str` whitespace: the six characters of `string.whitespace`. -/
def isPySpace (c : Char) : Bool :=
  c = ' ' || c = '\t' || c = '\x0a' || c = '\x0b' || c = '\x0c' || c = '\x0d'

/-- Formalisation of the spec's words for the key codec (for comparison with
`format_key`): the composite key is the namespace, `':'`, then the logical
key with ANY whitespace character replaced by the fixed separator. -/
def format_key_spec (ns key : Str) : Str :=
  ns ++ [':'] ++ key.flatMap (fun c => if isPySpace c then [middleDot] else [c])

/-- `_normalize_keyspace` (line 126): `keyspace.replace('-', '_')`. -/
def normalize_keyspace (keyspace : Str) : Str :=
  pyReplace '-' ['_'] keyspace

/-- `keyspace_name` (line 77): `'{}_{}'.format(self.keyspace_prefix, self._localdc())`
normalized. -/
def keyspace_name ( keyspace_prefix localdc : Str) : Str :=
  normalize_keyspace ( keyspace_prefix ++ ['_'] ++ localdc)

/-- `collections.Counter` as used by `_topology`: an association list from
data-center name to count, in insertion order. -/
abbrev Counter := List (Str × Nat)

/-- One loop iteration of `_topology` (lines 70-74): increment the count of
`dc` if present, otherwise insert it with count 1. -/
def counterBump (dc : Str) : Counter → Counter
  | [] => [(dc, 1)]
  | (d, n) :: rest =>
      if d = dc then (d, n + 1) :: rest else (d, n) :: counterBump dc rest

/-- `counter[dc]` with the `Counter` default of 0 for a missing key. -/
def counterGet : Counter → Str → Nat
  | [], _ => 0
  | (d, n) :: rest, dc => if d = dc then n else counterGet rest dc

/-- `_topology` (lines 65-75): start the counter at `{localdc: 1}` (the row
of `system.local`), then fold over the `data_center` column of the
`system.peers` rows. -/
def topology (localdc : Str) (peers : List Str) : Counter :=
  peers.foldl (fun c dc => counterBump dc c) [(localdc, 1)]

/-- `replication_policy` (lines 82-97), as a function of the local
data-center and the topology counter it reads from the cluster.  The
single-DC branch returns the SimpleStrategy literal; the multi-DC branch
appends one `, 'dc': 1` or `, 'dc': 0` fragment per data-center, in
counter (insertion) order. -/
def replication_policy (localdc : Str) (topo : Counter) : Str :=
  if topo.length = 1 then
    "\x7b'class': 'SimpleStrategy', 'replication_factor': 1\x7d".toList
  else
    "\x7b".toList ++ "'class': 'NetworkTopologyStrategy'".toList
      ++ topo.foldl
          (fun acc p =>
            acc ++ (if p.1 = localdc
                    then ", '".toList ++ p.1 ++ "': 1".toList
                    else ", '".toList ++ p.1 ++ "': 0".toList))
          []
      ++ "\x7d".toList

/-- A replication-strategy description: either SimpleStrategy with a
replication factor, or NetworkTopologyStrategy with a per-data-center
factor assignment. -/
inductive ReplicationStrategy where
  | simple (replication_factor : Nat)
  | networkTopology (factors : List (Str × Nat))
  deriving DecidableEq

/-- Decimal rendering of a natural number. -/
def natStr (n : Nat) : Str := Nat.toDigits 10 n

/-- Rendering of a `ReplicationStrategy` into the dict syntax that
`CREATE KEYSPACE ... WITH replication = ...` expects. -/
def renderStrategy : ReplicationStrategy → Str
  | .simple rf =>
      "\x7b'class': 'SimpleStrategy', 'replication_factor': ".toList
        ++ natStr rf ++ "\x7d".toList
  | .networkTopology fs =>
      "\x7b'class': 'NetworkTopologyStrategy'".toList
        ++ fs.flatMap (fun p => ", '".toList ++ p.1 ++ "': ".toList ++ natStr p.2)
        ++ "\x7d".toList

/-- Python runtime errors the store can raise while serving an operation. -/
inductive PyErr where
  | keyError
  | attributeError
  | typeError
  | unpickleError
  deriving DecidableEq

/-- Beaker configuration errors raised at construction time. -/
inductive BeakerErr where
  | missingCacheParameter (msg : Str)
  deriving DecidableEq

instance {ε α : Type} [DecidableEq ε] [DecidableEq α] :
    DecidableEq (Except ε α) := fun x y =>
  match x, y with
  | .ok a, .ok b =>
      if h : a = b then .isTrue (h ▸ rfl)
      else .isFalse (fun he => h (Except.ok.inj he))
  | .error a, .error b =>
      if h : a = b then .isTrue (h ▸ rfl)
      else .isFalse (fun he => h (Except.error.inj he))
  | .ok _, .error _ => .isFalse (fun he => Except.noConfusion he)
  | .error _, .ok _ => .isFalse (fun he => Except.noConfusion he)

/-- The `web_session` table: one row per storage key, `data` column holding
the hex text of the pickled value.  Rows are listed in insertion order; the
primary key guarantees at most one row per key (maintained by `upsert`). -/
abbrev Table := List (Str × Str)

/-- `SELECT * FROM web_session WHERE key = ?`: the data of the row with the
given key, if any. -/
def tlookup : Table → Str → Option Str
  | [], _ => none
  | (k, d) :: rest, key => if k = key then some d else tlookup rest key

/-- `INSERT INTO web_session (key, data) VALUES (?, ?)`: Cassandra INSERT is
an upsert — overwrite the row if the key exists, append it otherwise. -/
def upsert (tbl : Table) (key data : Str) : Table :=
  match tlookup tbl key with
  | some _ => tbl.map (fun p => if p.1 = key then (key, data) else p)
  | none => tbl ++ [(key, data)]

/-- Removal of every row with the given key (at most one, by the primary
key). -/
def eraseKey (key : Str) : Table → Table
  | [] => []
  | p :: rest => if p.1 = key then eraseKey key rest else p :: eraseKey key rest

/-- A hex digit character, lowercase, as Python's `'%x'`: `'0'` is code 48,
`'a'` is code 97 = 87 + 10. -/
def hexDigitChar (n : Nat) : Char :=
  if n < 10 then Char.ofNat (48 + n) else Char.ofNat (87 + n)

/-- The two hex digits of one byte (Python 2 string bytes are < 256). -/
def hexEncodeByte (b : Nat) : Str :=
  [hexDigitChar (b % 256 / 16), hexDigitChar (b % 16)]

/-- `s.encode('hex')`: each byte of `s` becomes two lowercase hex digits. -/
def hexEncode (s : Str) : Str :=
  s.flatMap (fun c => hexEncodeByte c.toNat)

/-- The value of one hex digit character, if it is one. -/
def hexVal (c : Char) : Option Nat :=
  if c = '0' then some 0 else if c = '1' then some 1
  else if c = '2' then some 2 else if c = '3' then some 3
  else if c = '4' then some 4 else if c = '5' then some 5
  else if c = '6' then some 6 else if c = '7' then some 7
  else if c = '8' then some 8 else if c = '9' then some 9
  else if c = 'a' then some 10 else if c = 'b' then some 11
  else if c = 'c' then some 12 else if c = 'd' then some 13
  else if c = 'e' then some 14 else if c = 'f' then some 15
  else none

/-- `s.decode('hex')`: pairs of hex digits back to bytes; fails (Python
raises) on odd length or a non-hex character. -/
def hexDecode : Str → Option Str
  | [] => some []
  | [_] => none
  | c1 :: c2 :: rest =>
      match hexVal c1, hexVal c2, hexDecode rest with
      | some h, some l, some bs => some (Char.ofNat (16 * h + l) :: bs)
      | _, _, _ => none

set_option linter.unusedVariables false in
/-- `set_value` (lines 134-136): pickle the value, hex-encode it, and upsert
it under the formatted key.  `dumps` models the external `pickle.dumps(·, 2)`;
the `expiretime` parameter is accepted and never used. -/
def set_value {α : Type} (dumps : α → Str) (tbl : Table) (ns key : Str)
    (value : α) (expiretime : Option Nat) : Table :=
  upsert tbl (format_key ns key) (hexEncode (dumps value))

/-- `get` (lines 147-152).  When no row matches, the default is returned.
When a row matches, the source evaluates `result[0].decode('hex')`:
`result[0]` is the Row object (a namedtuple with fields `key`, `data` — the
`.data` projection used by `__getitem__` on line 144 is missing here), and a
Row has no `decode` method, so CPython raises AttributeError before any
value can be produced. -/
def get {α : Type} (tbl : Table) (ns key : Str) (default : α) :
    Except PyErr α :=
  match tlookup tbl (format_key ns key) with
  | none => .ok default
  | some _ => .error .attributeError

/-- `__getitem__` (lines 141-145): raise KeyError when no row matches,
otherwise `pickle.loads(result[0].data.decode('hex'))`.  `loads` models the
external `pickle.loads`; a hex-decode failure is the TypeError Python's hex
codec raises, a pickle failure is modelled as `unpickleError`. -/
def getitem {α : Type} (loads : Str → Option α) (tbl : Table) (ns key : Str) :
    Except PyErr α :=
  match tlookup tbl (format_key ns key) with
  | none => .error .keyError
  | some data =>
      match hexDecode data with
      | none => .error .typeError
      | some raw =>
          match loads raw with
          | none => .error .unpickleError
          | some v => .ok v

/-- `_remove_key` (lines 160-164): `DELETE FROM web_session WHERE key = ? IF EXISTS`;
`was_applied` is true exactly when the row existed, and when it is false a
KeyError is raised. -/
def remove_key (tbl : Table) (formatted_key : Str) : Except PyErr Table :=
  match tlookup tbl formatted_key with
  | some _ => .ok (eraseKey formatted_key tbl)
  | none => .error .keyError

/-- `__delitem__` (lines 157-158): `self._remove_key(self._format_key(key))`. -/
def delitem (tbl : Table) (ns key : Str) : Except PyErr Table :=
  remove_key tbl (format_key ns key)

/-- `keys` (lines 173-175): `SELECT key FROM web_session WHERE token(key) > token(?)`
bound to the empty string — the keys of the rows whose partitioner token
exceeds the token of `''`.  `tok` models the cluster's partitioner. -/
def keys (tok : Str → Int) : Table → List Str
  | [] => []
  | p :: rest => if tok [] < tok p.1 then p.1 :: keys tok rest else keys tok rest

/-- Sequential conditional deletion of the listed keys (the loop body of
`do_remove`); aborts with the KeyError of the first unapplied delete. -/
def removeAll (tbl : Table) (ks : List Str) : Except PyErr Table :=
  ks.foldl (fun acc k => acc.bind (fun t => remove_key t k)) (.ok tbl)

/-- `do_remove` (lines 169-171): delete every key that `keys` returns,
passing each returned (storage) key verbatim to `_remove_key`. -/
def do_remove (tok : Str → Int) (tbl : Table) : Except PyErr Table :=
  removeAll tbl (keys tok tbl)

/-- Truthiness of an optional Python string: `None` and `''` are falsy. -/
def truthy : Option Str → Bool
  | none => false
  | some s => !s.isEmpty

/-- The connection state `open_connection` leaves behind (the driver objects
are opaque: `some ()` is a live object, `none` is Python `None`). -/
structure Conn where
  cluster : Option Unit
  cluster_getter : Option Unit
  session : Option Unit
  deriving DecidableEq

/-- The parameter-selection logic of `open_connection` (lines 99-113):
prefer `cluster`, then `cluster_getter` (called to obtain a cluster), then
`session`; with none of the three, raise MissingCacheParameter.  The
schema-provisioning statements that follow on lines 114-124 raise driver
errors, never MissingCacheParameter, and are outside this model. -/
def open_connection (session cluster cluster_getter : Option Unit) :
    Except BeakerErr Conn :=
  if cluster.isSome then
    .ok ⟨cluster, cluster_getter, some ()⟩
  else if cluster_getter.isSome then
    .ok ⟨some (), cluster_getter, some ()⟩
  else if session.isSome then
    .ok ⟨cluster, cluster_getter, session⟩
  else
    .error (.missingCacheParameter
      "session, cluster, or cluster_getter is required".toList)

/-- `__init__` (lines 48-59): raise MissingCacheParameter when
`keyspace_prefix` is falsy, then hand the three connection parameters to
`open_connection`. -/
def cassandra_init ( keyspace_prefix : Option Str)
    (cluster session cluster_getter : Option Unit) : Except BeakerErr Conn :=
  if truthy keyspace_prefix then
    open_connection session cluster cluster_getter
  else
    .error (.missingCacheParameter "keyspace_prefix is required".toList)

/-- Count of the occurrences of a data-center name in the peer rows. -/
def countOcc (dc : Str) : List Str → Nat
  | [] => 0
  | x :: xs => (if x = dc then 1 else 0) + countOcc dc xs

lemma pyReplace_eq_flatMap (old : Char) (new : Str) :
    ∀ s : Str, pyReplace old new s
      = s.flatMap (fun c => if c = old then new else [c]) := by
  intro s
  induction s with
  | nil => rfl
  | cons c rest ih => simp [pyReplace, ih, List.flatMap_cons]

lemma not_mem_pyReplace_self (c : Char) (new : Str) (hc : c ∉ new) :
    ∀ s : Str, c ∉ pyReplace c new s := by
  intro s
  induction s with
  | nil => simp [pyReplace]
  | cons x rest ih =>
    intro h
    simp only [pyReplace, List.mem_append] at h
    rcases h with h1 | h1
    · by_cases hx : x = c
      · rw [if_pos hx] at h1; exact hc h1
      · rw [if_neg hx] at h1
        rw [List.mem_singleton] at h1
        exact hx h1.symm
    · exact ih h1

lemma counterGet_bump (p dc : Str) :
    ∀ c : Counter, counterGet (counterBump p c) dc
      = counterGet c dc + (if p = dc then 1 else 0) := by
  intro c
  induction c with
  | nil => simp [counterBump, counterGet]
  | cons e rest ih =>
    obtain ⟨d, n⟩ := e
    by_cases hdp : d = p
    · subst hdp
      by_cases hdc : d = dc
      · subst hdc; simp [counterBump, counterGet]
      · simp [counterBump, counterGet, hdc]
    · by_cases hdc : d = dc
      · subst hdc
        have hpd : p ≠ d := fun h => hdp h.symm
        simp [counterBump, counterGet, hdp, hpd]
      · simp [counterBump, counterGet, hdp, hdc, ih]

lemma counterGet_foldl (dc : Str) :
    ∀ (peers : List Str) (c : Counter),
      counterGet (peers.foldl (fun c p => counterBump p c) c) dc
        = counterGet c dc + countOcc dc peers := by
  intro peers
  induction peers with
  | nil => intro c; simp [countOcc]
  | cons p rest ih =>
    intro c
    simp only [List.foldl_cons, countOcc, ih, counterGet_bump]
    omega

lemma foldl_append_flatMap {β : Type} (f : β → Str) :
    ∀ (l : List β) (acc : Str),
      l.foldl (fun a x => a ++ f x) acc = acc ++ l.flatMap f := by
  intro l
  induction l with
  | nil => intro acc; simp
  | cons x xs ih =>
    intro acc
    simp [List.foldl_cons, List.flatMap_cons, ih, List.append_assoc]

lemma replication_entries (localdc : Str) :
    ∀ topo : Counter,
      topo.flatMap (fun p =>
          if p.1 = localdc
          then ", '".toList ++ p.1 ++ "': 1".toList
          else ", '".toList ++ p.1 ++ "': 0".toList)
        = (topo.map (fun p => (p.1, if p.1 = localdc then 1 else 0))).flatMap
            (fun p => ", '".toList ++ p.1 ++ "': ".toList ++ natStr p.2) := by
  intro topo
  induction topo with
  | nil => rfl
  | cons p rest ih =>
    have hn1 : natStr 1 = ['1'] := by decide
    have hn0 : natStr 0 = ['0'] := by decide
    by_cases hp : p.1 = localdc
    · simp [List.flatMap_cons, List.map_cons, hp, hn1, List.append_assoc]
      simpa using ih
    · simp [List.flatMap_cons, List.map_cons, hp, hn0, List.append_assoc]
      simpa using ih

lemma tlookup_eraseKey_self (key : Str) :
    ∀ tbl : Table, tlookup (eraseKey key tbl) key = none := by
  intro tbl
  induction tbl with
  | nil => rfl
  | cons p rest ih =>
    by_cases hp : p.1 = key
    · simp [eraseKey, hp, ih]
    · simp [eraseKey, tlookup, hp, ih]

lemma eraseKey_of_not_mem (key : Str) :
    ∀ tbl : Table, (∀ q ∈ tbl, q.1 ≠ key) → eraseKey key tbl = tbl := by
  intro tbl
  induction tbl with
  | nil => intro _; rfl
  | cons p rest ih =>
    intro h
    have hp : p.1 ≠ key := h p (List.mem_cons_self p rest)
    simp [eraseKey, hp, ih fun q hq => h q (List.mem_cons_of_mem p hq)]

lemma keys_of_cover (tok : Str → Int) :
    ∀ tbl : Table, (∀ p ∈ tbl, tok [] < tok p.1) →
      keys tok tbl = tbl.map (fun p => p.1) := by
  intro tbl
  induction tbl with
  | nil => intro _; rfl
  | cons p rest ih =>
    intro h
    have hp : tok [] < tok p.1 := h p (List.mem_cons_self p rest)
    simp [keys, hp, ih fun q hq => h q (List.mem_cons_of_mem p hq)]

lemma removeAll_self :
    ∀ tbl : Table, (tbl.map (fun p => p.1)).Nodup →
      removeAll tbl (tbl.map (fun p => p.1)) = .ok [] := by
  intro tbl
  induction tbl with
  | nil => intro _; rfl
  | cons p rest ih =>
    intro hnd
    simp only [List.map_cons, List.nodup_cons] at hnd
    obtain ⟨hk, hnd'⟩ := hnd
    have h1 : remove_key (p :: rest) p.1 = .ok rest := by
      obtain ⟨k, d⟩ := p
      have he : eraseKey k rest = rest :=
        eraseKey_of_not_mem k rest fun q hq hqk =>
          hk (hqk ▸ List.mem_map_of_mem (fun p => p.1) hq)
      simp [remove_key, tlookup, eraseKey, he]
    have hrest := ih hnd'
    unfold removeAll at hrest ⊢
    simp only [List.map_cons, List.foldl_cons]
    have hb : (Except.ok (p :: rest)).bind (fun t => remove_key t p.1)
        = (.ok rest : Except PyErr Table) := by
      simp [Except.bind, h1]
    rw [hb, hrest]

/-- C1: for every topology and local data-center, `replication_policy`
renders the SimpleStrategy description with replication factor 1 when the
topology has exactly one data-center, and the NetworkTopologyStrategy
description assigning factor 1 to the local data-center and an explicit
factor-0 entry to every other data-center when it has more than one. -/
theorem replication_policy_single_and_multi_dc (localdc : Str) (topo : Counter) :
    (topo.length = 1 →
      replication_policy localdc topo = renderStrategy (.simple 1))
    ∧ (1 < topo.length →
      replication_policy localdc topo
        = renderStrategy (.networkTopology
            (topo.map (fun p => (p.1, if p.1 = localdc then 1 else 0))))) := by
  constructor
  · intro h
    rw [replication_policy, if_pos h]
    decide
  · intro h
    have hne : topo.length ≠ 1 := by omega
    rw [replication_policy, if_neg hne, renderStrategy]
    rw [foldl_append_flatMap, ← replication_entries]
    have hpre : "\x7b".toList ++ "'class': 'NetworkTopologyStrategy'".toList
        = "\x7b'class': 'NetworkTopologyStrategy'".toList := by decide
    simp [← hpre, List.append_assoc]

/-- C1 witness: the spec's multi-DC scenario, topology dc1:2 and dc2:3 with
local dc1, renders as NetworkTopologyStrategy with dc1:1 and dc2:0. -/
theorem replication_policy_multi_dc_witness :
    replication_policy "dc1".toList [("dc1".toList, 2), ("dc2".toList, 3)]
      = renderStrategy (.networkTopology [("dc1".toList, 1), ("dc2".toList, 0)]) := by
  have h := (replication_policy_single_and_multi_dc "dc1".toList
      [("dc1".toList, 2), ("dc2".toList, 3)]).2 (by decide)
  have hm : (List.map (fun p => (p.1, if p.1 = "dc1".toList then 1 else 0))
        [("dc1".toList, 2), ("dc2".toList, 3)])
      = [("dc1".toList, 1), ("dc2".toList, 0)] := by decide
  rw [hm] at h
  exact h

/-- C2 counterexample: the claim says ANY whitespace character of the
logical key is replaced, but `_format_key` only replaces the space
character: at the logical key consisting of one tab, the code leaves the
tab in place, so the claimed composite string (with the separator) is not
produced. -/
theorem format_key_whitespace_claim_false :
    format_key ['n'] ['\t'] ≠ format_key_spec ['n'] ['\t']
    ∧ format_key ['n'] ['\t'] = ['n', ':', '\t'] := by decide

/-- C2 amended: for every namespace and logical key, `_format_key` returns
the namespace, `':'`, then the key with every SPACE character (only U+0020,
not other whitespace) replaced by the non-ASCII separator U+00B7; it is a
pure total function of its two arguments. -/
theorem format_key_space_only (ns key : Str) :
    format_key ns key
      = ns ++ [':']
          ++ key.flatMap (fun c => if c = ' ' then [middleDot] else [c]) := by
  rw [format_key, pyReplace_eq_flatMap]

/-- C3 (code bug): after `set('k', 'v')`, `__getitem__` returns the value,
but `get` — the accessor the claim says returns the value instead of the
default — raises AttributeError, because line 152 calls `.decode('hex')`
on the Row object itself instead of on its `data` field (contrast line
144).  Evaluated here at namespace `n`, key `k`, value `v`, with the
pickle codec instantiated to the identity. -/
theorem get_after_set_attribute_error :
    get (set_value id ([] : Table) ['n'] ['k'] ['v'] none) ['n'] ['k'] ['d']
        = Except.error PyErr.attributeError
    ∧ getitem (fun s => some s) (set_value id ([] : Table) ['n'] ['k'] ['v'] none)
        ['n'] ['k'] = Except.ok ['v'] := by decide

/-- C4: `__delitem__` fails with KeyError exactly when the conditional
delete is not applied, i.e. when no row with the formatted key exists; and
after a successful delete of a key, a second delete of the same key fails
with KeyError. -/
theorem delitem_keyerror_iff_absent (tbl : Table) (ns key : Str) :
    (delitem tbl ns key = .error .keyError
      ↔ tlookup tbl (format_key ns key) = none)
    ∧ (∀ tbl', delitem tbl ns key = .ok tbl' →
        delitem tbl' ns key = .error .keyError) := by
  constructor
  · cases h : tlookup tbl (format_key ns key) <;>
      simp [delitem, remove_key, h]
  · intro tbl' hok
    cases h : tlookup tbl (format_key ns key) with
    | none => rw [delitem, remove_key, h] at hok; exact absurd hok (by simp)
    | some d =>
      rw [delitem, remove_key, h] at hok
      have : eraseKey (format_key ns key) tbl = tbl' := by
        simpa using hok
      rw [delitem, remove_key, ← this, tlookup_eraseKey_self]

/-- C4 witness: deleting `k` from a table whose only row is `k`, then
deleting it again, makes the second delete fail with KeyError. -/
theorem delitem_second_delete_witness :
    delitem ([] : Table) ['n'] ['k'] = Except.error PyErr.keyError :=
  (delitem_keyerror_iff_absent [(format_key ['n'] ['k'], ['x'])] ['n'] ['k']).2
    [] (by decide)

/-- C5: `_topology` maps each data-center to the number of cluster members
in it — the local node contributes 1 to the local data-center and each
peer row contributes 1 to its data-center — so the local data-center is
always present with count at least 1, and with zero peers the topology has
size exactly 1. -/
theorem topology_counts (localdc : Str) (peers : List Str) :
    1 ≤ counterGet (topology localdc peers) localdc
    ∧ (∀ dc, counterGet (topology localdc peers) dc
        = (if dc = localdc then 1 else 0) + countOcc dc peers)
    ∧ (peers = [] → (topology localdc peers).length = 1) := by
  have hmain : ∀ dc, counterGet (topology localdc peers) dc
      = (if dc = localdc then 1 else 0) + countOcc dc peers := by
    intro dc
    rw [topology, counterGet_foldl]
    simp [counterGet, eq_comm]
  refine ⟨?_, hmain, ?_⟩
  · rw [hmain localdc]; simp
  · intro h; subst h; rfl

/-- C5 witness: a single-node cluster (no peers) yields a topology of size
exactly 1. -/
theorem topology_single_node_witness :
    (topology "dc1".toList []).length = 1 :=
  (topology_counts "dc1".toList []).2.2 rfl

/-- C6: `keyspace_name` is exactly the normalization (every hyphen replaced
by an underscore) of `prefix ++ "_" ++ localDataCenter`, and the result
contains no hyphen. -/
theorem keyspace_name_normalized ( keyspace_prefix localdc : Str) :
    keyspace_name keyspace_prefix localdc
      = normalize_keyspace ( keyspace_prefix ++ ['_'] ++ localdc)
    ∧ '-' ∉ keyspace_name keyspace_prefix localdc :=
  ⟨rfl, not_mem_pyReplace_self '-' ['_'] (by decide)
    ( keyspace_prefix ++ ['_'] ++ localdc)⟩

/-- C7: construction raises MissingCacheParameter when `keyspace_prefix`
is missing (falsy), raises it when none of session, cluster and
cluster_getter is supplied, and succeeds past parameter validation — never
raising MissingCacheParameter — when the prefix and at least one
connection source are supplied. -/
theorem init_missing_parameter_cases (kp : Option Str)
    (cluster session cluster_getter : Option Unit) :
    (truthy kp = false →
      ∃ m, cassandra_init kp cluster session cluster_getter
        = .error (.missingCacheParameter m))
    ∧ (cluster = none → session = none → cluster_getter = none →
      ∃ m, cassandra_init kp cluster session cluster_getter
        = .error (.missingCacheParameter m))
    ∧ (truthy kp = true →
      (cluster.isSome || session.isSome || cluster_getter.isSome) = true →
      ∃ c, cassandra_init kp cluster session cluster_getter = .ok c) := by
  refine ⟨?_, ?_, ?_⟩
  · intro h
    simp [cassandra_init, h]
  · rintro rfl rfl rfl
    cases htr : truthy kp <;> simp [cassandra_init, htr, open_connection]
  · intro ht hsome
    rw [cassandra_init, if_pos ht, open_connection]
    cases hc : cluster.isSome <;> cases hg : cluster_getter.isSome <;>
      cases hs : session.isSome <;> simp_all

/-- C7 witness: a non-empty keyspace prefix together with a cluster object
passes parameter validation. -/
theorem init_missing_parameter_witness :
    truthy (some ['p']) = true
    ∧ ∃ c, cassandra_init (some ['p']) (some ()) none none = Except.ok c :=
  ⟨by decide, (init_missing_parameter_cases (some ['p']) (some ()) none none).2.2
    (by decide) (by decide)⟩

/-- C8: when the partitioner gives every stored key a token above the token
of the empty string (the scan's seed), `keys` returns exactly the key of
every row of the table, in table order, with no namespace filtering. -/
theorem keys_scan_unfiltered (tok : Str → Int) (tbl : Table)
    (hcov : ∀ p ∈ tbl, tok [] < tok p.1) :
    keys tok tbl = tbl.map (fun p => p.1) :=
  keys_of_cover tok tbl hcov

/-- C8 witness: a table holding rows of two different namespaces (`a` and
`b`) is enumerated in full — both namespaces' keys are returned. -/
theorem keys_scan_unfiltered_witness :
    keys (fun s => (s.length : Int))
        [(['a', ':', 'x'], ['1']), (['b', ':', 'y'], ['2'])]
      = List.map (fun p => p.1)
          [(['a', ':', 'x'], ['1']), (['b', ':', 'y'], ['2'])] :=
  keys_scan_unfiltered (fun s => (s.length : Int))
    [(['a', ':', 'x'], ['1']), (['b', ':', 'y'], ['2'])] (by decide)

/-- C9: `set_value` ignores its `expiretime` parameter entirely: two calls
that differ only in `expiretime` (including passing none) perform the same
write and leave the table in the same state. -/
theorem set_value_expiretime_noop {α : Type} (dumps : α → Str) (tbl : Table)
    (ns key : Str) (value : α) (e1 e2 : Option Nat) :
    set_value dumps tbl ns key value e1 = set_value dumps tbl ns key value e2 :=
  rfl

/-- C10: when the scan covers every row (every stored key's token is above
the seed's) and table keys are distinct, `do_remove` deletes every row of
the table — keys of all namespaces included, since each key `keys` returns
is passed verbatim to `_remove_key` — leaving the table empty. -/
theorem do_remove_empties_table (tok : Str → Int) (tbl : Table)
    (hcov : ∀ p ∈ tbl, tok [] < tok p.1)
    (hnd : (tbl.map (fun p => p.1)).Nodup) :
    do_remove tok tbl = .ok [] := by
  rw [do_remove, keys_of_cover tok tbl hcov]
  exact removeAll_self tbl hnd

/-- C10 witness: purging a table holding rows of the two namespaces `a`
and `b` removes all of them. -/
theorem do_remove_empties_table_witness :
    do_remove (fun s => (s.length : Int))
        [(['a', ':', 'x'], ['1']), (['b', ':', 'y'], ['2'])]
      = Except.ok [] :=
  do_remove_empties_table (fun s => (s.length : Int))
    [(['a', ':', 'x'], ['1']), (['b', ':', 'y'], ['2'])]
    (by decide) (by decide)

